import Mathlib

/-!
Verification development for the tlc5947 RGB LED driver
(`tlc5947/tlc5947.c`, `tlc5947/color.c`, `tlc5947/color.h`).

The C sources are shallowly embedded: machine integers become `Nat`/`Int`
with explicit `% 2^w` at the points where the C code casts or stores into
a narrower field, floats that only ever hold small decimal constants are
modelled exactly (see the comments at each such definition), and the
MicroPython heap objects that cross the API boundary are modelled by a
small inductive type.  Functions of this repository that are declared in
`color.h` but whose definitions are not part of the sources at hand
(white balance, gamut, brightness curve, `put_rgb8`) are modelled from the
specification and marked as such.
-/

set_option maxRecDepth 100000

namespace Tlc5947

/-! ## Basic numeric helpers -/

/-- Conversion of a mathematical integer to C `int16_t` two's-complement
semantics (used for the `push` token payload and the VM data stack). -/
def toInt16 (n : ℤ) : ℤ :=
  (n + 32768) % 65536 - 32768

/-- Truncation of a non-negative rational to a natural number, the effect of
a C cast from a float expression to an unsigned integer type. -/
def natFloorQ (q : ℚ) : ℕ :=
  q.floor.toNat

/-- `clamp` from `tlc5947.c`: `d < min ? min : d`, then `t > max ? max : t`. -/
def clampQ (d mn mx : ℚ) : ℚ :=
  let t := if d < mn then mn else d
  if t > mx then mx else t

/-! ## Color types (`color.h`) -/

/-- `rgb12`: triple of 12-bit channels (bitfields `uint16_t r:12` etc.). -/
structure Rgb12 where
  r : ℕ
  g : ℕ
  b : ℕ
deriving DecidableEq, Repr

/-- `rgb8`: triple of 8-bit channels. -/
structure Rgb8 where
  r : ℕ
  g : ℕ
  b : ℕ
deriving DecidableEq, Repr

def rgbBlack : Rgb12 := { r := 0, g := 0, b := 0 }

/-! ## `color.c` functions used by the driver -/

/-- `islower` from `color.c`. -/
def isLowerC (c : ℕ) : Bool :=
  97 ≤ c && c ≤ 122

/-- `toupper` from `color.c`. -/
def toupperC (c : ℕ) : ℕ :=
  if isLowerC c then c - 32 else c

/-- `get_byte` from `color.c`, on the numeric values of two characters.
The C code applies `toupper` only inside the comparison with 58 and then
subtracts from the *raw* character; the `uint8_t` accumulator truncates
mod 256 exactly as written here.  The truncated `Nat` subtraction agrees
with the C `int` subtraction on every hexadecimal digit (the only bytes
that reach this function through the validated pipeline, all ≥ 48). -/
def getByte (c1 c2 : ℕ) : ℕ :=
  let hi := if toupperC c1 < 58 then c1 - 48 else c1 - 55
  let lo := if toupperC c2 < 58 then c2 - 48 else c2 - 55
  ((hi <<< 4) % 256 ||| lo) % 256

/-- One channel of `get_rgb12`: `(uint16_t)(byte * RGB12_MAGIC2)` with
`RGB12_MAGIC2 = 16.0588236`, stored into a 12-bit bitfield.  For every
byte value 0..255 the exact double computation `b * 16.0588236` is more
than 4e-7 away from every integer (16.0588236·10^7 and 10^7 share only the
factor 4), while the accumulated double rounding error is below 2e-12, so
the truncated result equals the exact rational floor `b*160588236/10^7`. -/
def getRgb12Chan (b : ℕ) : ℕ :=
  (b * 160588236 / 10000000) % 4096

/-- `get_rgb12` from `color.c`: reads the six characters after the leading
byte of a `"#RRGGBB"` string. -/
def getRgb12 (cs : List Char) : Rgb12 :=
  let at_ : ℕ → ℕ := fun i => (cs.getD i ' ').toNat
  { r := getRgb12Chan (getByte (at_ 1) (at_ 2))
    g := getRgb12Chan (getByte (at_ 3) (at_ 4))
    b := getRgb12Chan (getByte (at_ 5) (at_ 6)) }

/-- One channel of `rgb8torgb12`: `(uint16_t)(c * RGB12_MAGIC1)` with
`RGB12_MAGIC1 = 16.0588235`.  The same double-rounding analysis as for
`getRgb12Chan` applies (16.0588235·10^7 shares only the factor 5 with
10^7), so the exact rational floor below is the value the C code stores. -/
def rgb8torgb12Chan (c : ℕ) : ℕ :=
  (c * 160588235 / 10000000) % 4096

/-- `rgb8torgb12` from `color.c`. -/
def rgb8torgb12 (c : Rgb8) : Rgb12 :=
  { r := rgb8torgb12Chan c.r, g := rgb8torgb12Chan c.g, b := rgb8torgb12Chan c.b }

/-- One channel of `rgb12torgb8`: `(uint8_t)(c / RGB12_MAGIC1)`.  For
channel values 0..4095 the exact quotient `c·10^7/160588235` is at least
6e-9 away from every integer while the double error is below 1e-13, so the
C truncation equals this rational floor. -/
def rgb12torgb8Chan (c : ℕ) : ℕ :=
  (c * 10000000 / 160588235) % 256

/-- `rgb12torgb8` from `color.c`. -/
def rgb12torgb8 (c : Rgb12) : Rgb8 :=
  { r := rgb12torgb8Chan c.r, g := rgb12torgb8Chan c.g, b := rgb12torgb8Chan c.b }

/-! ## Frame encoder (`set_buffer` / `get_buffer`, `tlc5947.c`) -/

/-- The per-lamp byte offset table `lut`. -/
def lut : List ℕ := [0, 4, 9, 13, 18, 22, 27, 31]

/-- The 36-byte output buffer, all zero (as after `memset(self->buffer, 0, 36)`). -/
def zeroBuf : List ℕ := List.replicate 36 0

/-- `set_buffer` from `tlc5947.c`.  Byte stores go through `(uint8_t)` casts,
hence the `% 256`; reads of existing bytes (`buf[lut[led]+4] & 0x0F` in the
even case, `buf[lut[led]] & 0xF0` in the odd case) read the buffer passed in. -/
def setBuffer (buf : List ℕ) (led : ℕ) (c : Rgb12) : List ℕ :=
  let b := lut.getD led 0
  if led % 2 = 0 then
    let buf0 := buf.set b ((c.b >>> 4) % 256)
    let buf1 := buf0.set (b + 1) ((((c.b &&& 15) <<< 4) ||| ((c.g >>> 8) &&& 15)) % 256)
    let buf2 := buf1.set (b + 2) (c.g % 256)
    let buf3 := buf2.set (b + 3) ((c.r >>> 4) % 256)
    buf3.set (b + 4) (((((c.r &&& 15) <<< 4) % 256) ||| (buf3.getD (b + 4) 0 &&& 15)) % 256)
  else
    let buf0 := buf.set b ((((c.b >>> 8) &&& 15) ||| (buf.getD b 0 &&& 240)) % 256)
    let buf1 := buf0.set (b + 1) (c.b % 256)
    let buf2 := buf1.set (b + 2) ((c.g >>> 4) % 256)
    let buf3 := buf2.set (b + 3) ((((c.g &&& 15) <<< 4) ||| ((c.r >>> 8) &&& 15)) % 256)
    buf3.set (b + 4) (c.r % 256)

/-- `get_buffer` from `tlc5947.c`.  Each channel expression is stored into a
12-bit bitfield, hence the `% 4096`. -/
def getBuffer (buf : List ℕ) (led : ℕ) : Rgb12 :=
  let b := lut.getD led 0
  let at_ : ℕ → ℕ := fun i => buf.getD i 0
  if led % 2 = 0 then
    { r := ((at_ (b + 3) <<< 4) ||| ((at_ (b + 4) &&& 240) >>> 4)) % 4096
      g := (at_ (b + 2) ||| ((at_ (b + 1) &&& 15) <<< 8)) % 4096
      b := ((at_ b <<< 4) ||| ((at_ (b + 1) &&& 240) >>> 4)) % 4096 }
  else
    { r := (at_ (b + 4) ||| ((at_ (b + 3) &&& 15) <<< 8)) % 4096
      g := ((at_ (b + 2) <<< 4) ||| ((at_ (b + 3) &&& 240) >>> 4)) % 4096
      b := (at_ (b + 1) ||| ((at_ b &&& 15) <<< 8)) % 4096 }

/-! ## Pattern language tokens (`token_t`, `tlc5947.c`) -/

/-- `token_t`.  `uninit` stands for an array slot the tokenizer never wrote
(C leaves such a slot as indeterminate heap memory); the `jumpNZ` payload is
an `Option` because the back-scan in the `]` emitter can fail to assign
`jump.new_pp`, leaving that field indeterminate as well.  The brightness
payload is kept as an exact rational where C parses a `float`; no theorem
below depends on a brightness value. -/
inductive Tok where
  | color (c : Rgb12)
  | transparent
  | sleep (total remaining : ℕ)
  | brightness (delta : ℚ)
  | increment
  | decrement
  | forever
  | jumpNZ (target : Option ℕ)
  | mark
  | push (value : ℤ)
  | pop
  | uninit
deriving DecidableEq, Repr

/-- Discriminator for `pJUMP_NZERO` (any payload). -/
def isJnz : Tok → Bool
  | Tok.jumpNZ _ => true
  | _ => false

/-- Discriminator for `pMARK`. -/
def isMark : Tok → Bool
  | Tok.mark => true
  | _ => false

/-! ## Pattern string checks and measurement (`tlc5947.c`) -/

def isDigitC (c : Char) : Bool :=
  48 ≤ c.toNat && c.toNat ≤ 57

def isXdigitC (c : Char) : Bool :=
  isDigitC c || (65 ≤ c.toNat && c.toNat ≤ 70) || (97 ≤ c.toNat && c.toNat ≤ 102)

/-- `check_balanced_jumps` from `tlc5947.c`. -/
def checkBalancedJumps (cs : List Char) (bc : ℕ) : Bool :=
  match cs with
  | [] => bc = 0
  | c :: rest =>
    if c = '[' then checkBalancedJumps rest (bc + 1)
    else if c = ']' then
      if bc = 0 then false else checkBalancedJumps rest (bc - 1)
    else checkBalancedJumps rest bc

/-- `check_colors` from `tlc5947.c`: after each `#` the next six bytes must be
hexadecimal digits (a terminating NUL inside the six fails the `isxdigit`
test, which the length condition models). -/
def checkColors (cs : List Char) : Bool :=
  match cs with
  | [] => true
  | c :: rest =>
    if c = '#' then
      ((rest.take 6).length = 6 && (rest.take 6).all isXdigitC) && checkColors rest
    else checkColors rest

/-- `get_pattern_length` from `tlc5947.c`: one pass that counts tokens,
raising `ValueError` on an unknown character and on a zero count.  The
`'|'` and `'<'` cases skip their digit argument and fall through to the
simple-token cases; spaces are skipped without counting. -/
def patLenGo (fuel : ℕ) (cs : List Char) (acc : ℕ) : Except Unit ℕ :=
  match fuel with
  | 0 => Except.ok acc
  | fuel + 1 =>
    match cs with
    | [] => Except.ok acc
    | c :: rest =>
      if c = '#' then patLenGo fuel (rest.drop 6) (acc + 1)
      else if c = '\x08' then
        let rest1 := if rest.headD ' ' = '-' then rest.drop 1 else rest
        patLenGo fuel (rest1.dropWhile (fun d => isDigitC d || d = '.')) (acc + 1)
      else if c = '|' ∨ c = '<' then patLenGo fuel (rest.dropWhile isDigitC) (acc + 1)
      else if c = '[' ∨ c = ']' ∨ c = '+' ∨ c = '-' ∨ c = ';' ∨ c = '@' ∨ c = '>' then
        patLenGo fuel rest (acc + 1)
      else if c = ' ' then patLenGo fuel rest acc
      else Except.error ()

def patLenE (cs : List Char) : Except Unit ℕ :=
  match patLenGo cs.length cs 0 with
  | Except.error e => Except.error e
  | Except.ok n => if n = 0 then Except.error () else Except.ok n

/-- `atoi` from `tlc5947.c` (`k*10 + digit` accumulation over the leading
digit span; the C `int` accumulator is not exercised anywhere near overflow
by the patterns considered here). -/
def atoiN (cs : List Char) : ℕ :=
  ((cs.takeWhile isDigitC).map (fun c => c.toNat - 48)).foldl (fun k d => k * 10 + d) 0

/-- `atof` from `tlc5947.c`, with exact rational arithmetic in place of the
C `float` accumulation (the structure — sign, integer digits, fraction
digits with a decreasing exponent, final scaling — is the same; the
exponent branch of the C function is unreachable from validated pattern
strings, since `get_pattern_length` rejects an `e` suffix before any
tokenization happens, and no theorem depends on a brightness value). -/
def atofQ (cs : List Char) : ℚ :=
  let neg := cs.headD ' ' = '-'
  let cs1 := if neg then cs.drop 1 else cs
  let ip := cs1.takeWhile isDigitC
  let a0 : ℚ := (atoiN ip : ℚ)
  let cs2 := cs1.drop ip.length
  let frac :=
    if cs2.headD ' ' = '.' then (cs2.drop 1).takeWhile isDigitC else []
  let a1 : ℚ := frac.foldl (fun a c => a * 10 + ((c.toNat - 48 : ℕ) : ℚ)) a0
  let e : ℤ := -(frac.length : ℤ)
  let a2 : ℚ := a1 * (10 : ℚ) ^ e
  if neg then -a2 else a2

/-! ## The tokenizer (`tokenize_pattern_str`, `tlc5947.c`) -/

/-- The back-scan of the `]` emitter: `for(size_t j = i; j && f; j--)` with
a counter `jc` that the `pJUMP_NZERO` case increments and the `pMARK` case
decrements, returning `j` when the decrement reaches zero.  Index 0 is
never examined because the loop condition is `j && f`. -/
def scanBack (pat : List Tok) : ℕ → ℤ → Option ℕ
  | 0, _ => none
  | j + 1, jc =>
    let t := pat.getD (j + 1) Tok.uninit
    if isJnz t then scanBack pat j (jc + 1)
    else if isMark t then
      if jc - 1 = 0 then some (j + 1) else scanBack pat j (jc - 1)
    else scanBack pat j jc

/-- The emission loop of `tokenize_pattern_str`.  The loop index `i` counts
every iteration (spaces included), so it always equals the number of array
slots passed so far; here that is `acc.length`, with skipped slots recorded
as `Tok.uninit`.  The `]` case first stores `pJUMP_NZERO` into slot `i` and
then back-scans the array, which `acc ++ [Tok.jumpNZ none]` reproduces.
`;` emits `pFOREVER` and returns at once.  An unknown character raises in C
("should have been caught by get_pattern_length"); emission stops here,
which is observationally equal for strings that passed `get_pattern_length`. -/
def tokGo (fuel : ℕ) (cs : List Char) (len : ℕ) (acc : List Tok) : List Tok :=
  match fuel with
  | 0 => acc
  | fuel + 1 =>
    match cs with
    | [] => acc
    | c :: rest =>
      if len ≤ acc.length then acc
      else if c = '#' then
        tokGo fuel (rest.drop 6) len (acc ++ [Tok.color (getRgb12 (c :: rest))])
      else if c = '@' then tokGo fuel rest len (acc ++ [Tok.transparent])
      else if c = '\x08' then
        let rest1 := if rest.headD ' ' = '-' then rest.drop 1 else rest
        let rest2 := rest1.dropWhile (fun d => isDigitC d || d = '.')
        tokGo fuel rest2 len (acc ++ [Tok.brightness (atofQ rest)])
      else if c = '|' then
        tokGo fuel (rest.dropWhile isDigitC) len (acc ++ [Tok.sleep (atoiN rest % 4294967296) 0])
      else if c = '<' then
        tokGo fuel (rest.dropWhile isDigitC) len (acc ++ [Tok.push (toInt16 (atoiN rest))])
      else if c = '>' then tokGo fuel rest len (acc ++ [Tok.pop])
      else if c = '[' then tokGo fuel rest len (acc ++ [Tok.mark])
      else if c = ']' then
        let target := scanBack (acc ++ [Tok.jumpNZ none]) acc.length 0
        tokGo fuel rest len (acc ++ [Tok.jumpNZ target])
      else if c = '+' then tokGo fuel rest len (acc ++ [Tok.increment])
      else if c = '-' then tokGo fuel rest len (acc ++ [Tok.decrement])
      else if c = ';' then acc ++ [Tok.forever]
      else if c = ' ' then tokGo fuel rest len (acc ++ [Tok.uninit])
      else acc

/-- `tokenize_pattern_str` applied to a whole pattern string with the length
obtained from `get_pattern_length`. -/
def tokenizePat (cs : List Char) (len : ℕ) : List Tok :=
  tokGo cs.length cs len []

/-- `check_pattern_string` followed by `get_pattern_length` followed by
`tokenize_pattern_str`: the pipeline `set`/`replace` run on a pattern
string (errors collapsed to `Unit`). -/
def parsePatternE (cs : List Char) : Except Unit (List Tok × ℕ) :=
  if checkBalancedJumps cs 0 then
    if checkColors cs then
      match patLenE cs with
      | Except.error _ => Except.error ()
      | Except.ok pl => Except.ok (tokenizePat cs pl, pl)
    else Except.error ()
  else Except.error ()

/-- Signed balance of bracket tokens over index interval `[j, i]`:
`+1` for each `pJUMP_NZERO`, `-1` for each `pMARK`. -/
def deltaTok (t : Tok) : ℤ :=
  if isJnz t then 1 else if isMark t then -1 else 0

def balFrom (pat : List Tok) (j : ℕ) : ℕ → ℤ
  | 0 => if j = 0 then deltaTok (pat.getD 0 Tok.uninit) else 0
  | i + 1 =>
    (if j ≤ i + 1 then deltaTok (pat.getD (i + 1) Tok.uninit) else 0) + balFrom pat j i

/-- Every assigned jump target in the token array is exactly what the
back-scan over that array computes. -/
def GoodTs (ts : List Tok) : Prop :=
  ∀ i j, i < ts.length → ts.getD i Tok.uninit = Tok.jumpNZ (some j) →
    scanBack ts i 0 = some j


/-! ## Color pipeline functions declared in `color.h` whose definitions are
not among the sources at hand; they are modelled from the specification. -/

/-- Modelled from the spec: `default_white_balance` — the identity
per-channel multiplier, so that `rgb12_white_balance(c, wb) == c`. -/
def defaultWhiteBalance : List ℚ := [1, 1, 1]

/-- Modelled from the spec: `default_gamut_matrix` — the identity matrix,
valid and acting as the identity. -/
def defaultGamutMatrix : List (List ℚ) := [[1, 0, 0], [0, 1, 0], [0, 0, 1]]

/-- Exact `⌊(n : ℚ) * q⌋` as a natural number, computed on the reduced
numerator and denominator so that the kernel can evaluate it (`Rat`
arithmetic itself does not reduce); for `q ≥ 0` this is the value of the C
cast `(u16)(n * q)` before the bitfield store. -/
def floorMulQ (n : ℕ) (q : ℚ) : ℕ :=
  (Int.ediv ((n : ℤ) * q.num) (q.den : ℤ)).toNat

/-- Exact `⌊r·q0 + g·q1 + b·q2⌋` over the exact rationals, again in integer
arithmetic so that it evaluates. -/
def floorRowQ (r g b : ℕ) (q0 q1 q2 : ℚ) : ℕ :=
  (Int.ediv
    ((r : ℤ) * q0.num * (q1.den : ℤ) * (q2.den : ℤ) +
     (g : ℤ) * q1.num * (q0.den : ℤ) * (q2.den : ℤ) +
     (b : ℤ) * q2.num * (q0.den : ℤ) * (q1.den : ℤ))
    ((q0.den : ℤ) * (q1.den : ℤ) * (q2.den : ℤ))).toNat

/-- Modelled from the spec: `rgb12_white_balance` — channel-wise
`(u16)(c_i * wb_i)`, stored into the 12-bit bitfield. -/
def rgb12WhiteBalance (c : Rgb12) (wm : List ℚ) : Rgb12 :=
  { r := floorMulQ c.r (wm.getD 0 1) % 4096
    g := floorMulQ c.g (wm.getD 1 1) % 4096
    b := floorMulQ c.b (wm.getD 2 1) % 4096 }

/-- Modelled from the spec: `rgb12_gamut` — matrix-vector product,
truncated per channel. -/
def rgb12Gamut (c : Rgb12) (m : List (List ℚ)) : Rgb12 :=
  let row : ℕ → List ℚ := fun i => m.getD i []
  let app : List ℚ → ℕ := fun q =>
    floorRowQ c.r c.g c.b (q.getD 0 0) (q.getD 1 0) (q.getD 2 0) % 4096
  { r := app (row 0), g := app (row 1), b := app (row 2) }

/-- Modelled from the spec: `gamut_matrix_valid` — every row sum is at most 1. -/
def gamutMatrixValid (m : List (List ℚ)) : Bool :=
  (List.range 3).all fun i =>
    decide ((m.getD i []).getD 0 0 + (m.getD i []).getD 1 0 + (m.getD i []).getD 2 0 ≤ 1)

/-- Modelled from the spec: `log_brightness` — piecewise-linear
interpolation through the 12 control points, on ten-thousandths. -/
def logBrightnessPoints : List (ℕ × ℕ) :=
  [(0, 0), (1500, 353), (4000, 1109), (6000, 1990), (7000, 2614), (8000, 3495),
   (8500, 4120), (9000, 5000), (9300, 5775), (9600, 6990), (9800, 8495), (10000, 10000)]

def interpSegments (x : ℕ) : List (ℕ × ℕ) → ℚ
  | [] => 0
  | [p] => (p.2 : ℚ)
  | p :: q :: rest =>
    if x ≤ q.1 then
      (p.2 : ℚ) + ((q.2 : ℚ) - (p.2 : ℚ)) * ((x : ℚ) - (p.1 : ℚ)) / ((q.1 : ℚ) - (p.1 : ℚ))
    else interpSegments x (q :: rest)

def logBrightness (f : ℚ) : ℚ :=
  let x : ℕ := min (natFloorQ (f * 10000)) 10000
  interpSegments x logBrightnessPoints / 10000

/-- Modelled from the spec: `rgb12_brightness` — channel-wise multiply by
`log_brightness(b)`, truncated. -/
def rgb12Brightness (c : Rgb12) (b : ℚ) : Rgb12 :=
  let k := logBrightness b
  { r := natFloorQ ((c.r : ℚ) * k) % 4096
    g := natFloorQ ((c.g : ℚ) * k) % 4096
    b := natFloorQ ((c.b : ℚ) * k) % 4096 }

/-- `adjust_color` from `tlc5947.c`:
`rgb12_gamut(rgb12_white_balance(c, white_m), gamut_m)`. -/
def adjustColor (wm : List ℚ) (gm : List (List ℚ)) (c : Rgb12) : Rgb12 :=
  rgb12Gamut (rgb12WhiteBalance c wm) gm

/-- Modelled from the spec: `put_rgb8` — formats `"#RRGGBB"`. -/
def hexChar (n : ℕ) : Char :=
  if n < 10 then Char.ofNat (48 + n) else Char.ofNat (55 + n)

def putRgb8 (c : Rgb8) : String :=
  String.mk ['#', hexChar (c.r / 16 % 16), hexChar (c.r % 16),
             hexChar (c.g / 16 % 16), hexChar (c.g % 16),
             hexChar (c.b / 16 % 16), hexChar (c.b % 16)]

/-! ## Pattern records and the VM (`pattern_base_t` / `pattern_do_tick`) -/

/-- `pattern_base_t`. -/
structure Pat where
  id : ℕ
  len : ℕ
  current : ℕ
  tokens : List Tok
  stack : List ℤ
  stackPos : ℕ
  brightness : ℚ
  baseColor : Rgb12
  color : Rgb12
  visible : Bool
deriving DecidableEq, Repr

/-- A zeroed `pattern_base_t` (the record is `memset` to 0 on creation and
on `replace`). -/
def zeroPat : Pat :=
  { id := 0, len := 0, current := 0, tokens := [], stack := List.replicate 10 0,
    stackPos := 0, brightness := 0, baseColor := rgbBlack, color := rgbBlack,
    visible := false }

/-- Result of one `pattern_do_tick` call: the C function returns `true`
when the pattern is done; the pattern record and `self->data.changed` are
updated through pointers. -/
structure StepRes where
  done : Bool
  pat : Pat
  changed : Bool
deriving DecidableEq, Repr

/-- `pattern_do_tick` from `tlc5947.c`.  The C `while(true)` loop is given
as fuel-indexed recursion: every `continue` strictly increases
`pattern->current` or returns, so `len + 1` fuel is enough for any call and
the fuel-exhaustion result is never reached from the entry points below.
A read past the emitted tokens (possible in C only after garbage data)
yields `Tok.uninit` and takes the `default` branch, which returns done.
A taken `pJUMP_NZERO` whose `new_pp` field was never assigned reads
indeterminate memory in C; the model jumps to 0, and no theorem depends on
that branch. -/
def patternDoTick (wm : List ℚ) (gm : List (List ℚ)) :
    ℕ → Bool → Pat → StepRes
  | 0, ch, p => { done := true, pat := p, changed := ch }
  | fuel + 1, ch, p =>
    match p.tokens.getD p.current Tok.uninit with
    | Tok.color c =>
      let nc := adjustColor wm gm c
      let p1 := { p with baseColor := nc, color := nc, brightness := 1,
                         current := p.current + 1 }
      if p1.current = p1.len then { done := true, pat := p1, changed := true }
      else patternDoTick wm gm fuel true p1
    | Tok.transparent =>
      let p1 := { p with visible := !p.visible, current := p.current + 1 }
      if p1.current = p1.len then { done := true, pat := p1, changed := true }
      else patternDoTick wm gm fuel true p1
    | Tok.sleep total remaining =>
      if remaining = 0 then
        { done := false, changed := ch,
          pat := { p with tokens := p.tokens.set p.current (Tok.sleep total total) } }
      else
        let r1 := remaining - 1
        let p1 := { p with tokens := p.tokens.set p.current (Tok.sleep total r1) }
        if r1 = 0 then
          let p2 := { p1 with current := p1.current + 1 }
          if p2.current = p2.len then { done := true, pat := p2, changed := ch }
          else patternDoTick wm gm fuel ch p2
        else { done := false, pat := p1, changed := ch }
    | Tok.brightness d =>
      let nb := clampQ (p.brightness + d) 0 1
      let p1 := { p with brightness := nb, color := rgb12Brightness p.baseColor nb,
                         current := p.current + 1 }
      if p1.current = p1.len then { done := true, pat := p1, changed := true }
      else patternDoTick wm gm fuel true p1
    | Tok.increment =>
      let v := p.stack.getD p.stackPos 0
      let p1 := { p with stack := p.stack.set p.stackPos (toInt16 (v + 1)),
                         current := p.current + 1 }
      if p1.current = p1.len then { done := true, pat := p1, changed := ch }
      else patternDoTick wm gm fuel ch p1
    | Tok.decrement =>
      let v := p.stack.getD p.stackPos 0
      let p1 := { p with stack := p.stack.set p.stackPos (toInt16 (v - 1)),
                         current := p.current + 1 }
      if p1.current = p1.len then { done := true, pat := p1, changed := ch }
      else patternDoTick wm gm fuel ch p1
    | Tok.forever =>
      -- C frees the token array and points at the static singleton unless it
      -- already does; in both branches the resulting record state is exactly
      -- the assignment below, so the pointer test needs no model.
      { done := false, changed := ch,
        pat := { p with tokens := [Tok.forever], len := 1, current := 0 } }
    | Tok.jumpNZ target =>
      if p.stack.getD p.stackPos 0 ≠ 0 then
        { done := false, changed := ch, pat := { p with current := target.getD 0 } }
      else
        let p1 := { p with current := p.current + 1 }
        if p1.current = p1.len then { done := true, pat := p1, changed := ch }
        else patternDoTick wm gm fuel ch p1
    | Tok.mark =>
      patternDoTick wm gm fuel ch { p with current := p.current + 1 }
    | Tok.push v =>
      let pos1 := p.stackPos + 1
      if pos1 = 10 then { done := true, pat := { p with stackPos := pos1 }, changed := ch }
      else
        patternDoTick wm gm fuel ch
          { p with stackPos := pos1, stack := p.stack.set pos1 v,
                   current := p.current + 1 }
    | Tok.pop =>
      if p.stackPos = 0 then { done := true, pat := p, changed := ch }
      else
        patternDoTick wm gm fuel ch
          { p with stackPos := p.stackPos - 1, current := p.current + 1 }
    | Tok.uninit => { done := true, pat := p, changed := ch }

/-! ## Controller state and operations (`tlc5947_tlc5947_obj_t`) -/

/-- Error kinds raised through MicroPython (`mp_raise_...`). -/
inductive Err where
  | valueErr
  | typeErr
  | attrErr
deriving DecidableEq, Repr

/-- The controller object.  `patternMap` is the list of the 8 per-lamp
pattern stacks; an empty list models a `NULL` map with `len == 0`. -/
structure Dev where
  buffer : List ℕ
  idMap : List ℕ
  whiteM : List ℚ
  gamutM : List (List ℚ)
  patterns : List Pat
  pid : ℕ
  patternMap : List (List ℕ)
  changed : Bool
  lock : ℕ
deriving DecidableEq, Repr

/-- `tlc5947_tlc5947_make_new`: zeroed buffer and data, `changed = true`,
identity `id_map`, default white balance and gamut. -/
def mkDev : Dev :=
  { buffer := zeroBuf
    idMap := [0, 1, 2, 3, 4, 5, 6, 7]
    whiteM := defaultWhiteBalance
    gamutM := defaultGamutMatrix
    patterns := []
    pid := 0
    patternMap := List.replicate 8 []
    changed := true
    lock := 0 }

/-- The per-lamp inner loop of `delete_pattern`: index `j` walks the map;
on a hit the element is removed (`len--` plus `memmove`) and `j` is
incremented by the `for` update anyway, so the entry shifted into slot `j`
is not examined; an empty result breaks out (C frees the map). -/
def delMapGo (pid : ℕ) : ℕ → List ℕ → ℕ → List ℕ
  | 0, m, _ => m
  | fuel + 1, m, j =>
    if j < m.length then
      if m.getD j 0 = pid then
        let m1 := m.eraseIdx j
        if m1.length = 0 then m1 else delMapGo pid fuel m1 (j + 1)
      else delMapGo pid fuel m (j + 1)
    else m

/-- The index scan `for(i = 0; i < len; i++) if(list[i].id == pid)` used by
`delete_pattern` and `replace`. -/
def findPidIdx (pid : ℤ) : List Pat → ℕ → Option ℕ
  | [], _ => none
  | p :: rest, i => if (p.id : ℤ) = pid then some i else findPidIdx pid rest (i + 1)

/-- `delete_pattern` from `tlc5947.c`: sets `changed`, removes `pid` from
every per-lamp map with `delMapGo`, then removes the first (unique) pattern
with this id from the pattern list; returns whether a pattern was removed. -/
def deletePattern (d : Dev) (pid : ℕ) : Dev × Bool :=
  let d1 := { d with changed := true,
                     patternMap := d.patternMap.map fun (m : List ℕ) => delMapGo pid (m.length + 1) m 0 }
  match findPidIdx (pid : ℤ) d1.patterns 0 with
  | some i => ({ d1 with patterns := d1.patterns.eraseIdx i }, true)
  | none => (d1, false)

/-- `get_led_from_id_map`: the `uint8_t led_in` parameter truncates the C
`int` argument mod 256; 0xFF entries mean disabled. -/
def getLedFromIdMap (d : Dev) (ledIn : ℤ) : Option ℕ :=
  let l := (ledIn % 256).toNat
  if 8 ≤ l then none
  else if d.idMap.getD l 255 = 255 then none
  else some (d.idMap.getD l 255)

/-- The shared first half of `tlc5947_tlc5947_set`: validate, measure,
allocate a fresh pid (`uint16_t` increment) and append the zeroed,
tokenized pattern record. -/
def setCommon (d : Dev) (cs : List Char) : Except Err (Dev × ℕ) :=
  if ¬ checkBalancedJumps cs 0 then Except.error Err.attrErr
  else if ¬ checkColors cs then Except.error Err.attrErr
  else
    match patLenE cs with
    | Except.error _ => Except.error Err.valueErr
    | Except.ok pl =>
      let pid := (d.pid + 1) % 65536
      let np : Pat := { zeroPat with id := pid, len := pl, visible := true,
                                     tokens := tokenizePat cs pl }
      Except.ok ({ d with patterns := d.patterns ++ [np], pid := pid }, pid)

/-- Append `pid` to the pattern map of physical lamp `led`. -/
def mapAppend (d : Dev) (led pid : ℕ) : Dev :=
  { d with patternMap := d.patternMap.set led (d.patternMap.getD led [] ++ [pid]) }

/-- `tlc5947_tlc5947_set` with an `int` lamp argument.  On a bad lamp the
freshly appended pattern is deleted again before raising. -/
def setIntS (d : Dev) (ledIn : ℤ) (cs : List Char) : Dev × Except Err ℕ :=
  match setCommon d cs with
  | Except.error e => (d, Except.error e)
  | Except.ok (d1, pid) =>
    match getLedFromIdMap d1 ledIn with
    | none => ((deletePattern d1 pid).1, Except.error Err.valueErr)
    | some led => (mapAppend d1 led pid, Except.ok pid)

/-- `tlc5947_tlc5947_set` with a list lamp argument: every entry is mapped
through the id map and `pid` is appended to each mapped lamp's stack in
order (the same lamp may occur more than once). -/
def setListGo (d : Dev) (pid : ℕ) : List ℤ → Dev × Except Err ℕ
  | [] => (d, Except.ok pid)
  | ledIn :: rest =>
    match getLedFromIdMap d ledIn with
    | none => ((deletePattern d pid).1, Except.error Err.typeErr)
    | some led => setListGo (mapAppend d led pid) pid rest

def setListS (d : Dev) (leds : List ℤ) (cs : List Char) : Dev × Except Err ℕ :=
  match setCommon d cs with
  | Except.error e => (d, Except.error e)
  | Except.ok (d1, pid) => setListGo d1 pid leds

/-- `tlc5947_tlc5947_replace`: validate and measure, find the pattern by
id, tokenize, then `memset` the record to zero and fill in tokens, id, len
and `visible` — everything else (including `brightness`) stays zero. -/
def replaceS (d : Dev) (pid : ℤ) (cs : List Char) : Dev × Except Err ℕ :=
  if ¬ checkBalancedJumps cs 0 then (d, Except.error Err.attrErr)
  else if ¬ checkColors cs then (d, Except.error Err.attrErr)
  else
    match patLenE cs with
    | Except.error _ => (d, Except.error Err.valueErr)
    | Except.ok pl =>
      match findPidIdx pid d.patterns 0 with
      | none => (d, Except.error Err.valueErr)
      | some pos =>
        if pid ≤ 0 then (d, Except.error Err.valueErr)
        else
          let np : Pat := { zeroPat with id := (pid % 65536).toNat, len := pl,
                                         visible := true, tokens := tokenizePat cs pl }
          ({ d with patterns := d.patterns.set pos np }, Except.ok (pid % 65536).toNat)

/-- `tlc5947_tlc5947_exists`. -/
def existsS (d : Dev) (pid : ℤ) : Bool :=
  if pid ≤ 0 then false else d.patterns.any fun p => (p.id : ℤ) = pid

/-- `tlc5947_tlc5947_delete`. -/
def deleteS (d : Dev) (pid : ℤ) : Dev × Bool :=
  deletePattern d (pid % 65536).toNat

/-- `tlc5947_tlc5947_get`: read the lamp back from the output buffer,
convert to 8 bits and format. -/
def getS (d : Dev) (ledIn : ℤ) : Except Err String :=
  match getLedFromIdMap d ledIn with
  | none => Except.error Err.valueErr
  | some led => Except.ok (putRgb8 (rgb12torgb8 (getBuffer d.buffer led)))

/-- The composition walk of `do_tick` for one lamp: start at the top of the
pattern stack, keep the color of every pattern found, stop at the first
visible one or at position 0.  A pid that is missing from the pattern list
loops forever in C (`done` is never set and `pid_pos` is not moved); the
fuel-out value BLACK is never reached when every mapped pid exists. -/
def composeGo (ps : List Pat) (m : List ℕ) : ℕ → ℕ → Rgb12
  | 0, _ => rgbBlack
  | fuel + 1, pidPos =>
    match ps.find? (fun p => p.id = m.getD pidPos 0) with
    | some p => if p.visible || pidPos = 0 then p.color else composeGo ps m fuel (pidPos - 1)
    | none => rgbBlack

def composeColor (ps : List Pat) (m : List ℕ) : Rgb12 :=
  if m.length = 0 then rgbBlack else composeGo ps m (m.length + 1) (m.length - 1)

/-- Phase 1 of `do_tick`: advance every pattern, deleting finished ones.
The C loop increments `i` after a deletion as well, although the deletion
shifted the next pattern down into slot `i` — the model reproduces that. -/
def tickPhase1 (fuel i : ℕ) (d : Dev) : Dev :=
  match fuel with
  | 0 => d
  | fuel + 1 =>
    if i < d.patterns.length then
      let p := d.patterns.getD i zeroPat
      let res := patternDoTick d.whiteM d.gamutM (p.len + 1) d.changed p
      let d1 := { d with patterns := d.patterns.set i res.pat, changed := res.changed }
      let d2 := if res.done then (deletePattern d1 res.pat.id).1 else d1
      tickPhase1 fuel (i + 1) d2
    else d

/-- Phase 2 of `do_tick`: recomposite every lamp into the output buffer. -/
def tickPhase2 (d : Dev) : Dev :=
  if d.changed then
    { d with buffer :=
        ((List.range 8).foldl
          (fun buf led => setBuffer buf led (composeColor d.patterns (d.patternMap.getD led [])))
          d.buffer) }
  else d

/-- `do_tick` from `tlc5947.c`: returns the `changed` flag. -/
def doTick (d : Dev) : Dev × Bool :=
  let d1 := tickPhase2 (tickPhase1 (d.patterns.length + 1) 0 d)
  (d1, d1.changed)

/-- `tlc5947_tlc5947_call` (one tick): when unlocked, run `do_tick`; when
it reports a change, emit the 36-byte frame over SPI with an XLAT strobe
(modelled as the returned frame) and clear `changed`.  When locked, do
nothing at all. -/
def callS (d : Dev) : Dev × Option (List ℕ) :=
  if d.lock = 0 then
    let r := doTick d
    if r.2 then ({ r.1 with changed := false }, some r.1.buffer)
    else (r.1, none)
  else (d, none)

/-! ## `set_gamut` and the MicroPython object boundary -/

/-- The MicroPython objects that reach `set_gamut`: float-convertible
values and lists.  `mp_obj_get_float_maybe` succeeds exactly on the former,
`mp_obj_get_array_fixed_n(o, 3, ...)` exactly on 3-element lists. -/
inductive MpVal where
  | num (q : ℚ)
  | arr (l : List MpVal)

def getFloatMaybe : MpVal → Option ℚ
  | MpVal.num q => some q
  | MpVal.arr _ => none

def getArr3 : MpVal → Option (List MpVal)
  | MpVal.num _ => none
  | MpVal.arr l => if l.length = 3 then some l else none

/-- Writes entry `(i, j)` of the gamut matrix. -/
def gamutWrite (gm : List (List ℚ)) (i j : ℕ) (v : ℚ) : List (List ℚ) :=
  gm.set i ((gm.getD i []).set j v)

/-- The inner `j` loop of `tlc5947_tlc5947_set_gamut`.  The C code asks
`mp_obj_get_float_maybe(items[i], &f)` — the row object itself, not
`sub_items[j]` — which is mirrored verbatim here. -/
def setGamutJ : ℕ → Dev → List MpVal → ℕ → ℕ → Dev × Option Err
  | 0, d, _, _, _ => (d, none)
  | fuel + 1, d, items, i, j =>
    if j < 3 then
      match getFloatMaybe (items.getD i (MpVal.num 0)) with
      | some f =>
        setGamutJ fuel { d with gamutM := gamutWrite d.gamutM i j (clampQ f 0 1) } items i (j + 1)
      | none => ({ d with gamutM := defaultGamutMatrix }, some Err.typeErr)
    else (d, none)

/-- The outer `i` loop of `tlc5947_tlc5947_set_gamut`, followed by the
`gamut_matrix_valid` check. -/
def setGamutI : ℕ → Dev → List MpVal → ℕ → Dev × Option Err
  | 0, d, _, _ => (d, none)
  | fuel + 1, d, items, i =>
    if i < 3 then
      match getArr3 (items.getD i (MpVal.num 0)) with
      | none => (d, some Err.valueErr)
      | some _ =>
        match setGamutJ 4 d items i 0 with
        | (d1, none) => setGamutI fuel d1 items (i + 1)
        | (d1, some e) => (d1, some e)
    else
      if gamutMatrixValid d.gamutM then (d, none)
      else ({ d with gamutM := defaultGamutMatrix }, some Err.valueErr)

/-- `tlc5947_tlc5947_set_gamut`. -/
def setGamutS (d : Dev) (matrixIn : MpVal) : Dev × Option Err :=
  match getArr3 matrixIn with
  | none => (d, some Err.valueErr)
  | some items => setGamutI 4 d items 0

/-! ## Decidable equality for `Except` results -/

instance instDecEqExcept {e a : Type} [DecidableEq e] [DecidableEq a] :
    DecidableEq (Except e a) := fun x y =>
  match x, y with
  | Except.ok u, Except.ok v =>
    if h : u = v then Decidable.isTrue (by rw [h])
    else Decidable.isFalse (by simp [h])
  | Except.ok _, Except.error _ => Decidable.isFalse (by simp)
  | Except.error _, Except.ok _ => Decidable.isFalse (by simp)
  | Except.error u, Except.error v =>
    if h : u = v then Decidable.isTrue (by rw [h])
    else Decidable.isFalse (by simp [h])

/-! ## One VM step and its iteration (used for the zero-length sleep) -/

/-- One `pattern_do_tick` call with the fuel bound `len + 1` that covers
every run of the C loop. -/
def stepPat (wm : List ℚ) (gm : List (List ℚ)) (ch : Bool) (p : Pat) : Pat :=
  (patternDoTick wm gm (p.len + 1) ch p).pat

def iterPat (wm : List ℚ) (gm : List (List ℚ)) (ch : Bool) : ℕ → Pat → Pat
  | 0, p => p
  | n + 1, p => iterPat wm gm ch n (stepPat wm gm ch p)

/-! ## Concrete scenario inputs -/

def hexBlue : String := "#0000FF"

def hexBlack : String := "#000000"

def strRed : String := "#FF0000"

def strRedForever : String := "#FF0000;"

def strGreenForever : String := "#00FF00;"

def strElevenPushes : String := "<1<1<1<1<1<1<1<1<1<1<1"

def strSleepZero : String := "|0"

def strBrackets : String := "[]"

def strPlusBrackets : String := "+[]"

/-- State after `set(lamp=0, "#0000FF")` on a fresh device. -/
def c1Dev1 : Dev := (setIntS mkDev 0 hexBlue.data).1

/-- State after the first tick that follows. -/
def c1Dev2 : Dev := (callS c1Dev1).1

/-- State after `set(lamp=[0,0], "#FF0000")` on a fresh device: pid 1 sits
twice (adjacently) on lamp 0's stack. -/
def c5Dev1 : Dev := (setListS mkDev [0, 0] strRed.data).1

def c5Dev2 : Dev := (deleteS c5Dev1 1).1

/-- State after `set(lamp=0, "<1<1<1<1<1<1<1<1<1<1<1")` (scenario S3). -/
def c6Dev1 : Dev := (setIntS mkDev 0 strElevenPushes.data).1

def c6Dev2 : Dev := (callS c6Dev1).1

/-- States around `replace`: a pattern whose Color token has executed
(brightness 1), then the same pid replaced with a new pattern. -/
def c7Dev1 : Dev := (setIntS mkDev 0 strRedForever.data).1

def c7Dev2 : Dev := (callS c7Dev1).1

def c7Dev3 : Dev := (replaceS c7Dev2 1 strGreenForever.data).1

/-- A device whose gamut matrix is not the default, to exhibit the reset. -/
def devGamutZero : Dev := { mkDev with gamutM := [[0, 0, 0], [0, 0, 0], [0, 0, 0]] }

/-- The identity matrix as the nested-list object a caller passes to
`set_gamut` — a valid gamut (every row sums to 1). -/
def mIdentity : MpVal :=
  MpVal.arr [MpVal.arr [MpVal.num 1, MpVal.num 0, MpVal.num 0],
             MpVal.arr [MpVal.num 0, MpVal.num 1, MpVal.num 0],
             MpVal.arr [MpVal.num 0, MpVal.num 0, MpVal.num 1]]

/-- A locked device. -/
def lockedDev : Dev := { mkDev with lock := 1 }

/-- A pattern sitting at a `Sleep 0 0` token (tokenized from "|0"). -/
def sleepZeroPat : Pat :=
  { zeroPat with id := 1, len := 1, visible := true, tokens := [Tok.sleep 0 0] }

/-- A pattern about to push with the stack pointer at 9. -/
def fullStackPat : Pat :=
  { zeroPat with id := 1, len := 1, visible := true, tokens := [Tok.push 1], stackPos := 9 }

/-- A witness color for the encoder round-trip. -/
def wColor : Rgb12 := { r := 4095, g := 2748, b := 123 }

/-! ## Nibble reassembly lemmas for the frame encoder -/

theorem and15_eq_mod (y : ℕ) : y &&& 15 = y % 16 := by
  have h := Nat.and_pow_two_sub_one_eq_mod y 4
  norm_num at h
  exact h

theorem orAdd (k a c : ℕ) (hc : c < 2 ^ k) : a * 2 ^ k ||| c = a * 2 ^ k + c := by
  rw [mul_comm, ← Nat.mul_add_lt_is_or hc, mul_comm]

theorem nibH1 : ∀ x < 16, ∀ y < 16, (x <<< 4 ||| y) % 256 &&& 15 = y := by decide

theorem nibH2 : ∀ x < 16, ∀ y < 16, ((x <<< 4 ||| y) % 256 &&& 240) >>> 4 = x := by decide

theorem nibH3 : ∀ z < 16, (z <<< 4 % 256 &&& 240) >>> 4 = z := by decide

theorem encL3 (x : ℕ) (hx : x < 4096) : ((x >>> 4 % 256) <<< 4 ||| x &&& 15) % 4096 = x := by
  have h1 : x >>> 4 = x / 16 := by rw [Nat.shiftRight_eq_div_pow]
  have hlt : x / 16 < 256 := by omega
  have h3 : x >>> 4 % 256 = x / 16 := by rw [h1, Nat.mod_eq_of_lt hlt]
  have h4 : x % 16 < 2 ^ 4 := by norm_num [Nat.mod_lt]
  rw [h3, and15_eq_mod, Nat.shiftLeft_eq, orAdd 4 (x / 16) (x % 16) h4]
  have e : x / 16 * 2 ^ 4 + x % 16 = x := by omega
  rw [e, Nat.mod_eq_of_lt hx]

theorem encL2 (x : ℕ) (hx : x < 4096) : (x % 256 ||| (x >>> 8 &&& 15) <<< 8) % 4096 = x := by
  have h1 : x >>> 8 = x / 256 := by rw [Nat.shiftRight_eq_div_pow]
  have hlt : x / 256 < 16 := by omega
  have h3 : x >>> 8 &&& 15 = x / 256 := by rw [h1, and15_eq_mod, Nat.mod_eq_of_lt hlt]
  have h4 : x % 256 < 2 ^ 8 := by norm_num [Nat.mod_lt]
  rw [h3, Nat.shiftLeft_eq, Nat.lor_comm, orAdd 8 (x / 256) (x % 256) h4]
  have e : x / 256 * 2 ^ 8 + x % 256 = x := by omega
  rw [e, Nat.mod_eq_of_lt hx]

theorem encL4 (x : ℕ) (hx : x < 4096) :
    (x % 256 ||| ((x >>> 8 &&& 15) % 256 &&& 15) <<< 8) % 4096 = x := by
  have h1 : x >>> 8 = x / 256 := by rw [Nat.shiftRight_eq_div_pow]
  have h3 : (x >>> 8 &&& 15) % 256 &&& 15 = x / 256 := by
    rw [h1]
    simp only [and15_eq_mod]
    omega
  have h4 : x % 256 < 2 ^ 8 := by norm_num [Nat.mod_lt]
  rw [h3, Nat.shiftLeft_eq, Nat.lor_comm, orAdd 8 (x / 256) (x % 256) h4]
  have e : x / 256 * 2 ^ 8 + x % 256 = x := by omega
  rw [e, Nat.mod_eq_of_lt hx]

theorem encL1 (x : ℕ) (hx : x < 4096) :
    ((x >>> 4 % 256) <<< 4 ||| ((x &&& 15) <<< 4 % 256 &&& 240) >>> 4) % 4096 = x := by
  have h0 : x &&& 15 < 16 := by rw [and15_eq_mod]; omega
  rw [nibH3 (x &&& 15) h0]
  exact encL3 x hx


/-! ## List index helpers -/

theorem getD_append_lt {α : Type} (l l' : List α) (d : α) :
    ∀ i, i < l.length → (l ++ l').getD i d = l.getD i d := by
  induction l with
  | nil => intro i h; exact absurd h (by simp)
  | cons a t ih =>
    intro i h
    cases i with
    | zero => rfl
    | succ n => exact ih n (by simpa using h)

theorem getD_append_len {α : Type} (l : List α) (t d : α) :
    (l ++ [t]).getD l.length d = t := by
  induction l with
  | nil => rfl
  | cons a s ih => exact ih

/-! ## What the back-scan computes -/

theorem not_mark_of_jnz (t : Tok) (h : isJnz t = true) : ¬ isMark t = true := by
  cases t <;> simp_all [isJnz, isMark]

theorem deltaTok_of_jnz (t : Tok) (h : isJnz t = true) : deltaTok t = 1 := by
  unfold deltaTok
  rw [if_pos h]

theorem deltaTok_of_mark (t : Tok) (h1 : ¬ isJnz t = true) (h2 : isMark t = true) :
    deltaTok t = -1 := by
  unfold deltaTok
  rw [if_neg h1, if_pos h2]

theorem deltaTok_other (t : Tok) (h1 : ¬ isJnz t = true) (h2 : ¬ isMark t = true) :
    deltaTok t = 0 := by
  unfold deltaTok
  rw [if_neg h1, if_neg h2]

theorem scanBack_congr (pat pat' : List Tok) :
    ∀ j jc,
      (∀ q, q ≤ j → isJnz (pat.getD q Tok.uninit) = isJnz (pat'.getD q Tok.uninit) ∧
        isMark (pat.getD q Tok.uninit) = isMark (pat'.getD q Tok.uninit)) →
      scanBack pat j jc = scanBack pat' j jc := by
  intro j
  induction j with
  | zero => intro jc _; rfl
  | succ n ih =>
    intro jc h
    obtain ⟨h1, h2⟩ := h (n + 1) (le_refl _)
    simp only [scanBack]
    rw [← h1, ← h2]
    have hrec : ∀ jc', scanBack pat n jc' = scanBack pat' n jc' := fun jc' =>
      ih jc' (fun q hq => h q (Nat.le_succ_of_le hq))
    split_ifs
    all_goals first | rfl | exact hrec _

theorem balFrom_zero_of_lt (pat : List Tok) : ∀ i j, i < j → balFrom pat j i = 0 := by
  intro i
  induction i with
  | zero =>
    intro j h
    simp only [balFrom]
    rw [if_neg (by omega)]
  | succ n ih =>
    intro j h
    simp only [balFrom]
    rw [if_neg (by omega), ih j (by omega)]
    ring

theorem balFrom_succ (pat : List Tok) (j i : ℕ) (h : j ≤ i + 1) :
    balFrom pat j (i + 1) = deltaTok (pat.getD (i + 1) Tok.uninit) + balFrom pat j i := by
  simp only [balFrom]
  rw [if_pos h]

theorem balFrom_self (pat : List Tok) (j : ℕ) (hj : 1 ≤ j) :
    balFrom pat j j = deltaTok (pat.getD j Tok.uninit) := by
  obtain ⟨n, rfl⟩ : ∃ n, j = n + 1 := ⟨j - 1, by omega⟩
  rw [balFrom_succ pat (n + 1) n (le_refl _), balFrom_zero_of_lt pat n (n + 1) (by omega)]
  ring

/-- Postcondition of the back-scan: a returned index holds a `pMARK`, lies in
`[1, j0]`, balances the bracket tokens of `[j, j0]` against the incoming
counter, and is the largest such index. -/
theorem scanBack_spec (pat : List Tok) :
    ∀ j0 jc j, scanBack pat j0 jc = some j →
      isMark (pat.getD j Tok.uninit) = true ∧ 1 ≤ j ∧ j ≤ j0 ∧
      jc + balFrom pat j j0 = 0 ∧
      (∀ k, j < k → k ≤ j0 → isMark (pat.getD k Tok.uninit) = true →
        jc + balFrom pat k j0 ≠ 0) := by
  intro j0
  induction j0 with
  | zero => intro jc j h; exact absurd h (by simp [scanBack])
  | succ n ih =>
    intro jc j h
    simp only [scanBack] at h
    by_cases hJ : isJnz (pat.getD (n + 1) Tok.uninit) = true
    · rw [if_pos hJ] at h
      obtain ⟨m1, m2, m3, m4, m5⟩ := ih (jc + 1) j h
      have hd := deltaTok_of_jnz _ hJ
      refine ⟨m1, m2, by omega, ?_, ?_⟩
      · rw [balFrom_succ pat j n (by omega), hd]
        omega
      · intro k hk1 hk2 hkM
        by_cases hkn : k = n + 1
        · subst hkn
          exact absurd hkM (not_mark_of_jnz _ hJ)
        · rw [balFrom_succ pat k n (by omega), hd]
          have := m5 k hk1 (by omega) hkM
          omega
    · rw [if_neg hJ] at h
      by_cases hM : isMark (pat.getD (n + 1) Tok.uninit) = true
      · rw [if_pos hM] at h
        have hd := deltaTok_of_mark _ hJ hM
        by_cases hz : jc - 1 = 0
        · rw [if_pos hz] at h
          obtain rfl : j = n + 1 := by
            have := Option.some.inj h
            omega
          refine ⟨hM, by omega, le_refl _, ?_, ?_⟩
          · rw [balFrom_self pat (n + 1) (by omega), hd]
            omega
          · intro k hk1 hk2 _
            omega
        · rw [if_neg hz] at h
          obtain ⟨m1, m2, m3, m4, m5⟩ := ih (jc - 1) j h
          refine ⟨m1, m2, by omega, ?_, ?_⟩
          · rw [balFrom_succ pat j n (by omega), hd]
            omega
          · intro k hk1 hk2 hkM
            by_cases hkn : k = n + 1
            · subst hkn
              rw [balFrom_self pat (n + 1) (by omega), hd]
              omega
            · rw [balFrom_succ pat k n (by omega), hd]
              have := m5 k hk1 (by omega) hkM
              omega
      · rw [if_neg hM] at h
        obtain ⟨m1, m2, m3, m4, m5⟩ := ih jc j h
        have hd := deltaTok_other _ hJ hM
        refine ⟨m1, m2, by omega, ?_, ?_⟩
        · rw [balFrom_succ pat j n (by omega), hd]
          omega
        · intro k hk1 hk2 hkM
          by_cases hkn : k = n + 1
          · subst hkn
            exact absurd hkM hM
          · rw [balFrom_succ pat k n (by omega), hd]
            have := m5 k hk1 (by omega) hkM
            omega



theorem goodTs_nil : GoodTs [] := by
  intro i j h
  exact absurd h (by simp)

theorem goodAppend (acc : List Tok) (t : Tok) (hGood : GoodTs acc)
    (ht : ∀ j, t = Tok.jumpNZ (some j) →
      scanBack (acc ++ [Tok.jumpNZ none]) acc.length 0 = some j) :
    GoodTs (acc ++ [t]) := by
  intro i j hi hTok
  rw [List.length_append] at hi
  simp only [List.length_singleton] at hi
  by_cases hlt : i < acc.length
  · rw [getD_append_lt _ _ _ _ hlt] at hTok
    rw [← hGood i j hlt hTok]
    apply scanBack_congr
    intro q hq
    constructor <;> rw [getD_append_lt _ _ _ _ (by omega)]
  · obtain rfl : i = acc.length := by omega
    rw [getD_append_len] at hTok
    rw [← ht j hTok]
    apply scanBack_congr
    intro q hq
    by_cases hq2 : q < acc.length
    · constructor <;> rw [getD_append_lt _ _ _ _ hq2, getD_append_lt _ _ _ _ hq2]
    · obtain rfl : q = acc.length := by omega
      rw [getD_append_len, getD_append_len, hTok]
      constructor <;> rfl


theorem goodAppendNoJ (acc : List Tok) (t : Tok) (h : GoodTs acc)
    (hne : isJnz t = false) : GoodTs (acc ++ [t]) := by
  apply goodAppend acc t h
  intro j hj
  rw [hj] at hne
  exact absurd hne (by simp [isJnz])

theorem tokGo_good :
    ∀ fuel cs len acc, GoodTs acc → GoodTs (tokGo fuel cs len acc) := by
  intro fuel
  induction fuel with
  | zero =>
    intro cs len acc h
    simpa [tokGo] using h
  | succ n ih =>
    intro cs len acc h
    match cs with
    | [] => simpa [tokGo] using h
    | c :: rest =>
      simp only [tokGo]
      by_cases h1 : len ≤ acc.length
      · rw [if_pos h1]
        exact h
      rw [if_neg h1]
      by_cases h2 : c = '#'
      · rw [if_pos h2]
        exact ih _ _ _ (goodAppendNoJ _ _ h rfl)
      rw [if_neg h2]
      by_cases h3 : c = '@'
      · rw [if_pos h3]
        exact ih _ _ _ (goodAppendNoJ _ _ h rfl)
      rw [if_neg h3]
      by_cases h4 : c = '\x08'
      · rw [if_pos h4]
        exact ih _ _ _ (goodAppendNoJ _ _ h rfl)
      rw [if_neg h4]
      by_cases h5 : c = '|'
      · rw [if_pos h5]
        exact ih _ _ _ (goodAppendNoJ _ _ h rfl)
      rw [if_neg h5]
      by_cases h6 : c = '<'
      · rw [if_pos h6]
        exact ih _ _ _ (goodAppendNoJ _ _ h rfl)
      rw [if_neg h6]
      by_cases h7 : c = '>'
      · rw [if_pos h7]
        exact ih _ _ _ (goodAppendNoJ _ _ h rfl)
      rw [if_neg h7]
      by_cases h8 : c = '['
      · rw [if_pos h8]
        exact ih _ _ _ (goodAppendNoJ _ _ h rfl)
      rw [if_neg h8]
      by_cases h9 : c = ']'
      · rw [if_pos h9]
        refine ih _ _ _ (goodAppend _ _ h ?_)
        intro j hj
        have hinj := Tok.jumpNZ.inj hj
        rw [← hinj]
      rw [if_neg h9]
      by_cases h10 : c = '+'
      · rw [if_pos h10]
        exact ih _ _ _ (goodAppendNoJ _ _ h rfl)
      rw [if_neg h10]
      by_cases h11 : c = '-'
      · rw [if_pos h11]
        exact ih _ _ _ (goodAppendNoJ _ _ h rfl)
      rw [if_neg h11]
      by_cases h12 : c = ';'
      · rw [if_pos h12]
        exact goodAppendNoJ _ _ h rfl
      rw [if_neg h12]
      by_cases h13 : c = ' '
      · rw [if_pos h13]
        exact ih _ _ _ (goodAppendNoJ _ _ h rfl)
      rw [if_neg h13]
      exact h



theorem tokenizePat_good (cs : List Char) (len : ℕ) : GoodTs (tokenizePat cs len) :=
  tokGo_good cs.length cs len [] goodTs_nil

/-- Claim C2 (amended): in every token array emitted from a space-free
pattern string that passes validation, every JumpNZ token whose target was
assigned points at a Mark token at a positive index, namely the innermost
matching Mark: brackets balance over the enclosed interval and no closer
Mark balances. -/
theorem claimC2_bracket_targets (s : List Char) (len : ℕ)
    (_hbal : checkBalancedJumps s 0 = true) (_hcol : checkColors s = true)
    (_hlen : patLenE s = Except.ok len) (_hsp : ' ' ∉ s) :
    ∀ i j, (tokenizePat s len).getD i Tok.uninit = Tok.jumpNZ (some j) →
      j < (tokenizePat s len).length ∧
      isMark ((tokenizePat s len).getD j Tok.uninit) = true ∧
      1 ≤ j ∧ j < i ∧ balFrom (tokenizePat s len) j i = 0 ∧
      (∀ k, j < k → k ≤ i →
        isMark ((tokenizePat s len).getD k Tok.uninit) = true →
        balFrom (tokenizePat s len) k i ≠ 0) := by
  intro i j hTok
  have hscan := tokenizePat_good s len i j (by
    by_contra hge
    rw [List.getD_eq_default _ _ (by omega)] at hTok
    exact absurd hTok (by simp)) hTok
  obtain ⟨m1, m2, m3, m4, m5⟩ := scanBack_spec (tokenizePat s len) i 0 j hscan
  have hjlen : j < (tokenizePat s len).length := by
    by_contra hge
    rw [List.getD_eq_default _ _ (by omega)] at m1
    exact absurd m1 (by simp [isMark])
  have hji : j < i := by
    rcases Nat.lt_or_ge j i with hlt | hge
    · exact hlt
    · obtain rfl : j = i := by omega
      rw [hTok] at m1
      exact absurd m1 (by simp [isMark])
  refine ⟨hjlen, m1, m2, hji, by omega, ?_⟩
  intro k hk1 hk2 hkM
  have := m5 k hk1 hk2 hkM
  omega

/-- Claim C2 counterexample: the pattern string `"[]"` passes validation,
yet the emitted JumpNZ token's `new_pp` field is never assigned by the
back-scan (the C loop `for(j = i; j && f; j--)` skips index 0), so it does
not index the matching Mark at index 0. -/
theorem claimC2_counterexample :
    parsePatternE strBrackets.data = Except.ok ([Tok.mark, Tok.jumpNZ none], 2) ∧
    ¬ ∃ j : ℕ, [Tok.mark, Tok.jumpNZ none].getD 1 Tok.uninit = Tok.jumpNZ (some j) := by
  constructor
  · decide
  · rintro ⟨j, hj⟩
    simp [List.getD] at hj

theorem claimC2_bracket_targets_witness :
    3 < (tokenizePat strPlusBrackets.data 3).length + 1 ∧
    (1 < (tokenizePat strPlusBrackets.data 3).length ∧
      isMark ((tokenizePat strPlusBrackets.data 3).getD 1 Tok.uninit) = true ∧
      1 ≤ 1 ∧ 1 < 2 ∧ balFrom (tokenizePat strPlusBrackets.data 3) 1 2 = 0 ∧
      (∀ k, 1 < k → k ≤ 2 →
        isMark ((tokenizePat strPlusBrackets.data 3).getD k Tok.uninit) = true →
        balFrom (tokenizePat strPlusBrackets.data 3) k 2 ≠ 0)) := by
  constructor
  · decide
  · exact claimC2_bracket_targets strPlusBrackets.data 3 (by decide) (by decide)
      (by decide) (by decide) 2 1 (by decide)


/-! ## More list index helpers -/

theorem set_getD_self {α : Type} (l : List α) (d : α) :
    ∀ i, i < l.length → l.set i (l.getD i d) = l := by
  induction l with
  | nil => intro i h; exact absurd h (by simp)
  | cons a t ih =>
    intro i h
    cases i with
    | zero => rfl
    | succ n =>
      simp only [List.set, List.cons.injEq, true_and]
      exact ih n (by simpa using h)

theorem getD_set_self {α : Type} (l : List α) (a d : α) :
    ∀ i, i < l.length → (l.set i a).getD i d = a := by
  induction l with
  | nil => intro i h; exact absurd h (by simp)
  | cons x t ih =>
    intro i h
    cases i with
    | zero => rfl
    | succ n => exact ih n (by simpa using h)

theorem getD_set_ne {α : Type} (l : List α) (a d : α) :
    ∀ i q, q ≠ i → (l.set i a).getD q d = l.getD q d := by
  induction l with
  | nil => intro i q _; simp
  | cons x t ih =>
    intro i q hne
    cases i with
    | zero =>
      cases q with
      | zero => exact absurd rfl hne
      | succ m => rfl
    | succ n =>
      cases q with
      | zero => rfl
      | succ m => exact ih n m (by omega)

theorem findPidIdx_bounds (pid : ℤ) :
    ∀ l n i, findPidIdx pid l n = some i → n ≤ i ∧ i - n < l.length := by
  intro l
  induction l with
  | nil => intro n i h; exact absurd h (by simp [findPidIdx])
  | cons p rest ih =>
    intro n i h
    simp only [findPidIdx] at h
    by_cases hp : (p.id : ℤ) = pid
    · rw [if_pos hp] at h
      obtain rfl := Option.some.inj h
      simp
    · rw [if_neg hp] at h
      have := ih (n + 1) i h
      constructor
      · omega
      · simp only [List.length_cons]
        omega

/-- The remaining-token read of a pattern determines that `current` is in
range of the emitted token list. -/
theorem current_lt_of_getD (p : Pat) (t : Tok) (ht : t ≠ Tok.uninit)
    (h : p.tokens.getD p.current Tok.uninit = t) : p.current < p.tokens.length := by
  by_contra hge
  rw [List.getD_eq_default _ _ (by omega)] at h
  exact ht h.symm


/-- Claim C10: a `Sleep` token parsed from `"|0"` has `sleep_time = 0`; a
VM step at a `Sleep 0 0` token re-enters the first-encounter branch
(`remaining` is reassigned `sleep_time`, which is 0), returns Continue and
does not advance `pc`, leaving the pattern state literally unchanged — so
the pattern stays suspended at that token forever and never reports Done
there. -/
theorem claimC10_zero_sleep_suspends :
    parsePatternE strSleepZero.data = Except.ok ([Tok.sleep 0 0], 1) ∧
    (∀ wm gm ch p fuel, p.tokens.getD p.current Tok.uninit = Tok.sleep 0 0 →
      patternDoTick wm gm (fuel + 1) ch p = { done := false, pat := p, changed := ch }) ∧
    (∀ wm gm ch p n, p.tokens.getD p.current Tok.uninit = Tok.sleep 0 0 →
      iterPat wm gm ch n p = p ∧
      (patternDoTick wm gm (p.len + 1) ch p).done = false) := by
  have hstep : ∀ (wm : List ℚ) (gm : List (List ℚ)) (ch : Bool) (p : Pat) (fuel : ℕ),
      p.tokens.getD p.current Tok.uninit = Tok.sleep 0 0 →
      patternDoTick wm gm (fuel + 1) ch p = { done := false, pat := p, changed := ch } := by
    intro wm gm ch p fuel htok
    have hlt : p.current < p.tokens.length :=
      current_lt_of_getD p (Tok.sleep 0 0) (by simp) htok
    have hset : p.tokens.set p.current (Tok.sleep 0 0) = p.tokens := by
      conv_lhs => rw [← htok]
      exact set_getD_self p.tokens Tok.uninit p.current hlt
    simp only [patternDoTick, htok, hset]
    rfl
  refine ⟨by decide, hstep, ?_⟩
  intro wm gm ch p n htok
  induction n with
  | zero => exact ⟨rfl, by rw [hstep wm gm ch p p.len htok]⟩
  | succ m ihm =>
    have hone : stepPat wm gm ch p = p := by
      unfold stepPat
      rw [hstep wm gm ch p p.len htok]
    constructor
    · show iterPat wm gm ch (m + 1) p = p
      unfold iterPat
      rw [hone]
      exact ihm.1
    · exact ihm.2

/-- Witnessing instance for claim C10's hypotheses: the concrete "|0"
pattern, five iterated ticks. -/
theorem claimC10_zero_sleep_suspends_witness :
    iterPat defaultWhiteBalance defaultGamutMatrix false 5 sleepZeroPat = sleepZeroPat ∧
    (patternDoTick defaultWhiteBalance defaultGamutMatrix (sleepZeroPat.len + 1) false
      sleepZeroPat).done = false :=
  claimC10_zero_sleep_suspends.2.2 defaultWhiteBalance defaultGamutMatrix false
    sleepZeroPat 5 (by decide)

/-- Claim C9: a tick invocation on a locked controller performs no work:
the state (buffer, patterns, everything) is returned unchanged and no SPI
frame is emitted. -/
theorem claimC9_locked_tick_is_noop (d : Dev) (h : d.lock ≠ 0) :
    callS d = (d, none) := by
  unfold callS
  rw [if_neg h]

theorem claimC9_locked_tick_is_noop_witness : callS lockedDev = (lockedDev, none) :=
  claimC9_locked_tick_is_noop lockedDev (by decide)

/-- Claim C6: a Push with the stack pointer at 9 (`sp+1 == 10`) and a Pop
with the stack pointer at 0 make the VM step return Done with no error
escaping; in scenario S3 (11 pushes) the pattern is deleted by the first
tick, so `exists(pid)` is false afterwards. -/
theorem claimC6_fatal_vm_errors_absorbed :
    (∀ wm gm ch p v fuel, p.tokens.getD p.current Tok.uninit = Tok.push v →
      p.stackPos = 9 → (patternDoTick wm gm (fuel + 1) ch p).done = true) ∧
    (∀ wm gm ch p fuel, p.tokens.getD p.current Tok.uninit = Tok.pop →
      p.stackPos = 0 →
      patternDoTick wm gm (fuel + 1) ch p = { done := true, pat := p, changed := ch }) ∧
    (setIntS mkDev 0 strElevenPushes.data).2 = Except.ok 1 ∧
    existsS c6Dev2 1 = false ∧ c6Dev2.patterns = [] := by
  refine ⟨?_, ?_, by decide, by decide, by decide⟩
  · intro wm gm ch p v fuel htok hpos
    simp only [patternDoTick, htok, hpos]
    rfl
  · intro wm gm ch p fuel htok hpos
    simp only [patternDoTick, htok, hpos]
    rfl

theorem claimC6_fatal_vm_errors_absorbed_witness :
    (patternDoTick defaultWhiteBalance defaultGamutMatrix 1 false fullStackPat).done = true :=
  claimC6_fatal_vm_errors_absorbed.1 defaultWhiteBalance defaultGamutMatrix false
    fullStackPat 1 0 (by decide) (by decide)


/-- Claim C4: because the inner loop of `set_gamut` passes the row object
`items[i]` (not `sub_items[j]`) to `mp_obj_get_float_maybe`, the float
conversion always fails; `set_gamut` therefore never installs any matrix —
every call errors out — and a well-formed float matrix (here the valid
identity) resets the gamut to the default and raises a TypeError. -/
theorem claimC4_set_gamut_never_installs :
    (∀ (d : Dev) (m : MpVal), (setGamutS d m).2.isSome = true) ∧
    setGamutS devGamutZero mIdentity =
      ({ devGamutZero with gamutM := defaultGamutMatrix }, some Err.typeErr) := by
  refine ⟨?_, by decide⟩
  intro d m
  match m with
  | MpVal.num q => rfl
  | MpVal.arr l =>
    simp only [setGamutS, getArr3]
    by_cases hl : l.length = 3
    · rw [if_pos hl]
      simp only [setGamutI]
      rw [if_pos (by norm_num : (0 : ℕ) < 3)]
      cases hget : l.getD 0 (MpVal.num 0) with
      | num q => simp [getArr3]
      | arr l2 =>
        simp only [getArr3]
        by_cases h2 : l2.length = 3
        · rw [if_pos h2]
          simp only [setGamutJ]
          rw [if_pos (by norm_num : (0 : ℕ) < 3), hget]
          simp [getFloatMaybe]
        · rw [if_neg h2]
          rfl
    · rw [if_neg hl]
      rfl

theorem claimC4_set_gamut_never_installs_witness :
    (setGamutS mkDev mIdentity).2.isSome = true :=
  claimC4_set_gamut_never_installs.1 mkDev mIdentity


/-- Claim C7 (amended): a successful `replace(pid, pattern_str)` swaps in
the freshly tokenized token array and memsets the rest of the record:
`pc = 0`, `sp = 0`, a zeroed stack, `visible = true` — and
`brightness = 0`, not 1 (the `memset` zeroes it and nothing rewrites it;
brightness only becomes 1 when a Color token later executes).  All other
patterns, the buffer and the per-lamp stacks are untouched. -/
theorem claimC7_replace_resets_record (d : Dev) (pid : ℤ) (cs : List Char) (d' : Dev)
    (rp : ℕ) (h : replaceS d pid cs = (d', Except.ok rp)) :
    ∃ pos pl, findPidIdx pid d.patterns 0 = some pos ∧ pos < d.patterns.length ∧
      patLenE cs = Except.ok pl ∧
      d'.patterns = d.patterns.set pos
        { zeroPat with id := (pid % 65536).toNat, len := pl, visible := true,
                       tokens := tokenizePat cs pl } ∧
      (d'.patterns.getD pos zeroPat).brightness = 0 ∧
      (d'.patterns.getD pos zeroPat).current = 0 ∧
      (d'.patterns.getD pos zeroPat).stackPos = 0 ∧
      (d'.patterns.getD pos zeroPat).stack = List.replicate 10 0 ∧
      (d'.patterns.getD pos zeroPat).visible = true ∧
      (d'.patterns.getD pos zeroPat).tokens = tokenizePat cs pl ∧
      d'.buffer = d.buffer ∧ d'.patternMap = d.patternMap ∧ d'.changed = d.changed ∧
      d'.patterns.length = d.patterns.length ∧
      (∀ q, q ≠ pos → d'.patterns.getD q zeroPat = d.patterns.getD q zeroPat) := by
  unfold replaceS at h
  split at h
  · exact absurd (congrArg Prod.snd h) (by simp)
  split at h
  · exact absurd (congrArg Prod.snd h) (by simp)
  split at h
  · exact absurd (congrArg Prod.snd h) (by simp)
  next pl hpl =>
    split at h
    · exact absurd (congrArg Prod.snd h) (by simp)
    next pos hfind =>
      split at h
      · exact absurd (congrArg Prod.snd h) (by simp)
      next hpid =>
        set npat : Pat := { zeroPat with id := (pid % 65536).toNat, len := pl, visible := true, tokens := tokenizePat cs pl } with hnp
        have hdev : d' = { d with patterns := (d.patterns.set pos npat) } :=
          (congrArg Prod.fst h).symm
        have hpos : pos < d.patterns.length := by
          have := findPidIdx_bounds pid d.patterns 0 pos hfind
          omega
        refine ⟨pos, pl, hfind, hpos, hpl, ?_⟩
        rw [hdev]
        refine ⟨rfl, ?_, ?_, ?_, ?_, ?_, ?_, rfl, rfl, rfl, by simp, ?_⟩
        · rw [getD_set_self _ _ _ _ hpos]
          all_goals rfl
        · rw [getD_set_self _ _ _ _ hpos]
          all_goals rfl
        · rw [getD_set_self _ _ _ _ hpos]
          all_goals rfl
        · rw [getD_set_self _ _ _ _ hpos]
          all_goals rfl
        · rw [getD_set_self _ _ _ _ hpos]
        · rw [getD_set_self _ _ _ _ hpos]
        · intro q hq
          rw [getD_set_ne _ _ _ _ _ hq]


/-- Claim C3: frame-encoder round-trip — writing any RGB12 color to any of
the 8 lamps of a zeroed 36-byte buffer and reading the same lamp back
returns exactly that color, for both the byte-aligned (even) and
nibble-offset (odd) layouts. -/
theorem claimC3_encoder_roundtrip : ∀ led < 8, ∀ c : Rgb12,
    c.r < 4096 → c.g < 4096 → c.b < 4096 →
    getBuffer (setBuffer zeroBuf led c) led = c := by
  intro led hled c hr hg hb
  obtain ⟨r, g, b⟩ := c
  simp only at hr hg hb
  have hn : ∀ y : ℕ, y &&& 15 < 16 := fun y => by rw [and15_eq_mod]; omega
  have hs : ∀ y : ℕ, y < 4096 → y >>> 8 &&& 15 < 16 := fun y hy => by
    rw [Nat.shiftRight_eq_div_pow, and15_eq_mod]; omega
  interval_cases led <;>
    simp [setBuffer, getBuffer, zeroBuf, lut] <;>
    refine ⟨?_, ?_, ?_⟩
  all_goals first
    | exact encL1 r hr
    | exact encL4 b hb
    | (rw [nibH1 (b &&& 15) (hn b) (g >>> 8 &&& 15) (hs g hg)]; exact encL2 g hg)
    | (rw [nibH2 (b &&& 15) (hn b) (g >>> 8 &&& 15) (hs g hg)]; exact encL3 b hb)
    | (rw [nibH1 (g &&& 15) (hn g) (r >>> 8 &&& 15) (hs r hr)]; exact encL2 r hr)
    | (rw [nibH2 (g &&& 15) (hn g) (r >>> 8 &&& 15) (hs r hr)]; exact encL3 g hg)

theorem claimC3_encoder_roundtrip_witness :
    getBuffer (setBuffer zeroBuf 3 wColor) 3 = wColor :=
  claimC3_encoder_roundtrip 3 (by norm_num) wColor (by decide) (by decide) (by decide)

/-- Claim C1 evaluated at its failing input: on a fresh device,
`set(lamp=0, "#0000FF")` followed by one tick yields `get(0) == "#000000"`,
not `"#0000FF"` — the Color pattern is reported Done and deleted inside the
tick, and the recomposition that runs in the same tick then finds lamp 0's
stack empty and writes BLACK, so the blue never survives in the buffer. -/
theorem claimC1_background_eval :
    (setIntS mkDev 0 hexBlue.data).2 = Except.ok 1 ∧
    (callS c1Dev1).2 = some zeroBuf ∧
    existsS c1Dev2 1 = false ∧
    getS c1Dev2 0 = Except.ok hexBlack ∧
    getS c1Dev2 0 ≠ Except.ok hexBlue := by
  refine ⟨by decide, by decide, by decide, by decide, by decide⟩

/-- Claim C5 evaluated at its failing input: `set(lamp=[0,0], "#FF0000")`
puts pid 1 twice, adjacently, on lamp 0's stack; `delete(1)` returns true
and removes the pattern record (`exists(1)` becomes false), but the map
walk skips the entry shifted down by its own `memmove`, so one copy of
pid 1 survives on lamp 0's stack. -/
theorem claimC5_delete_leaves_adjacent_duplicate :
    (setListS mkDev [0, 0] strRed.data).2 = Except.ok 1 ∧
    c5Dev1.patternMap = [[1, 1], [], [], [], [], [], [], []] ∧
    (deleteS c5Dev1 1).2 = true ∧
    existsS c5Dev2 1 = false ∧
    c5Dev2.patterns = [] ∧
    c5Dev2.patternMap = [[1], [], [], [], [], [], [], []] := by
  refine ⟨by decide, by decide, by decide, by decide, by decide, by decide⟩

/-- Claim C8 evaluated: the 8→12-bit expansion `rgb8torgb12` (per channel,
`RGB12_MAGIC1`) and the `get_rgb12` parse channel (`RGB12_MAGIC2`) are
monotonic non-decreasing over all 256 inputs and map 0 to 0; `get_rgb12`
maps 255 to 4095, but `rgb8torgb12` maps 255 to 4094, not 4095. -/
theorem claimC8_expansion_eval :
    rgb8torgb12Chan 0 = 0 ∧ getRgb12Chan 0 = 0 ∧ getRgb12Chan 255 = 4095 ∧
    rgb8torgb12Chan 255 = 4094 ∧ rgb8torgb12Chan 255 ≠ 4095 ∧
    (∀ c < 255, rgb8torgb12Chan c ≤ rgb8torgb12Chan (c + 1)) ∧
    (∀ c < 255, getRgb12Chan c ≤ getRgb12Chan (c + 1)) := by
  refine ⟨by decide, by decide, by decide, by decide, by decide, by decide, by decide⟩

theorem claimC8_expansion_eval_witness :
    rgb8torgb12Chan 100 ≤ rgb8torgb12Chan 101 :=
  claimC8_expansion_eval.2.2.2.2.2.1 100 (by norm_num)

/-- Claim C7 counterexample: before the `replace`, the pattern's Color
token has executed and its brightness is 1; the `replace` call succeeds and
leaves the record with brightness 0 — not 1 as the claim states. -/
theorem claimC7_counterexample :
    (c7Dev2.patterns.getD 0 zeroPat).brightness = 1 ∧
    (replaceS c7Dev2 1 strGreenForever.data).2 = Except.ok 1 ∧
    (c7Dev3.patterns.getD 0 zeroPat).brightness = 0 ∧
    (c7Dev3.patterns.getD 0 zeroPat).brightness ≠ 1 := by
  refine ⟨by decide, by decide, by decide, by decide⟩

theorem claimC7_replace_resets_record_witness :
    ∃ pos pl, findPidIdx 1 c7Dev2.patterns 0 = some pos ∧ pos < c7Dev2.patterns.length ∧
      patLenE strGreenForever.data = Except.ok pl ∧
      c7Dev3.patterns = c7Dev2.patterns.set pos
        { zeroPat with id := ((1 : ℤ) % 65536).toNat, len := pl, visible := true,
                       tokens := tokenizePat strGreenForever.data pl } ∧
      (c7Dev3.patterns.getD pos zeroPat).brightness = 0 ∧
      (c7Dev3.patterns.getD pos zeroPat).current = 0 ∧
      (c7Dev3.patterns.getD pos zeroPat).stackPos = 0 ∧
      (c7Dev3.patterns.getD pos zeroPat).stack = List.replicate 10 0 ∧
      (c7Dev3.patterns.getD pos zeroPat).visible = true ∧
      (c7Dev3.patterns.getD pos zeroPat).tokens = tokenizePat strGreenForever.data pl ∧
      c7Dev3.buffer = c7Dev2.buffer ∧ c7Dev3.patternMap = c7Dev2.patternMap ∧
      c7Dev3.changed = c7Dev2.changed ∧
      c7Dev3.patterns.length = c7Dev2.patterns.length ∧
      (∀ q, q ≠ pos → c7Dev3.patterns.getD q zeroPat = c7Dev2.patterns.getD q zeroPat) :=
  claimC7_replace_resets_record c7Dev2 1 strGreenForever.data c7Dev3 1 (by decide)


end Tlc5947
